import Mathlib

/-!
Shallow embedding of the `elysiajs-di` module factory (src/factory/module.factory.ts,
here `src/unnamed/part_000`) and its decorators, for checking the repository's
natural-language specification.

Conventions of the embedding:
* JavaScript objects used as string-keyed maps (the guard data bag, the request
  context's dynamic properties) are association lists with JS assignment
  semantics: assigning to an existing key updates it in place, assigning to a
  fresh key appends it (insertion order is preserved, as in JS objects).
* `set.status : number | undefined` becomes `Option Nat`; the JS truthiness
  test `!set.status` is true exactly on `none` and `some 0`.
* Mutable fields of the `ModuleFactory` instance become an explicit
  `FactoryState` threaded through the functions; a thrown exception becomes an
  `Option String` error component returned *alongside* the state, because in
  the source a throw does not roll back mutations already performed.
  `registerModule` takes recursion fuel; any fuel exceeding the number of
  distinct module classes makes the fuel-exhaustion branch unreachable.
* Guard instances resolved from the DI container are modelled by their
  observable behaviour: a function from the execution context (request context
  plus data bag) to a verdict, an optional status write and a list of data-bag
  writes.  Lifecycle hooks are modelled by two functions per instance class:
  whether the class implements the hook (the source's duck-typed
  `hasOnModuleInit` etc.) and whether invoking it throws.
* Plugin registration (JWT/CORS/cron) and route mounting touch only the Elysia
  app object and the stored JWT config, which no claim observes; they are
  omitted from `FactoryState`.
-/

namespace ElysiaDI

/-! ## Definitions -/

/-- Entry map with JavaScript object-assignment semantics: updating an existing
key keeps its position, a new key is appended at the end. -/
def setEntry {α : Type} : List (String × α) → String → α → List (String × α)
  | [], k, v => [(k, v)]
  | (k', v') :: rest, k, v =>
    if k' = k then (k, v) :: rest else (k', v') :: setEntry rest k v

/-- Lookup of a key in an association list (first binding wins, as in a JS
object where keys are unique). -/
def lookupEntry {α : Type} : List (String × α) → String → Option α
  | [], _ => none
  | (k', v') :: rest, k => if k' = k then some v' else lookupEntry rest k

/-- Keys of an association list. -/
def entryKeys {α : Type} (l : List (String × α)) : List String :=
  l.map Prod.fst

/-- Apply a sequence of JS property assignments to an object. -/
def applyWrites {α : Type} (m : List (String × α)) (ws : List (String × α)) :
    List (String × α) :=
  ws.foldl (fun acc kv => setEntry acc kv.1 kv.2) m

/-! ### The guard-execution model (`routeHandler` closure in `createControllerPlugin`) -/

/-- The mutable response holder `set` of the request context (only the field
the factory's guard logic reads and writes). -/
structure RespSet where
  status : Option Nat
  deriving DecidableEq, Repr

/-- JS truthiness test `!set.status`: true on `undefined` and on `0`. -/
def statusFalsy : Option Nat → Bool
  | none => true
  | some n => n == 0

/-- The request context as the guard logic observes it: the response holder
plus the dynamic string-keyed properties (`[key: string]: unknown`). -/
structure Ctx (α : Type) where
  set : RespSet
  fields : List (String × α)
  deriving DecidableEq, Repr

/-- Observable action of one `canActivate` invocation: its verdict, an optional
assignment to `context.set.status`, and the property assignments it performed
on the execution context's `data` bag. -/
structure GuardAct (α : Type) where
  result : Bool
  setStatus : Option (Option Nat)
  bagWrites : List (String × α)

/-- A guard's behaviour: what its `canActivate` does given the current request
context and the current contents of the shared `data` bag. -/
def GuardBeh (α : Type) : Type :=
  Ctx α → List (String × α) → GuardAct α

/-- Run one guard: returns its verdict together with the updated context and
data bag. -/
def applyGuard {α : Type} (g : GuardBeh α) (c : Ctx α) (bag : List (String × α)) :
    Bool × Ctx α × List (String × α) :=
  let a := g c bag
  (a.result,
   { c with set := { status := match a.setStatus with | none => c.set.status | some s => s } },
   applyWrites bag a.bagWrites)

/-- On short-circuit the source runs
`if (!context.set.status) { context.set.status = 401 }`. -/
def applyUnauthorizedDefault {α : Type} (c : Ctx α) : Ctx α :=
  if statusFalsy c.set.status then { c with set := { status := some 401 } } else c

/-- Result of the `for (const GuardClass of guards)` loop: either some guard
returned false (carrying how many guards were invoked and the context after
the 401-defaulting), or all guards passed. -/
inductive GuardsOutcome (α : Type) where
  | stopped (invoked : Nat) (c : Ctx α)
  | passed (c : Ctx α) (bag : List (String × α))
  deriving DecidableEq

/-- The guard loop of the route handler, started on a fresh execution context
whose `data` bag is `{}`. -/
def guardLoop {α : Type} : List (GuardBeh α) → Ctx α → List (String × α) → GuardsOutcome α
  | [], c, bag => .passed c bag
  | g :: gs, c, bag =>
    match applyGuard g c bag with
    | (true, c', bag') =>
      match guardLoop gs c' bag' with
      | .stopped n c'' => .stopped (n + 1) c''
      | .passed c'' bag'' => .passed c'' bag''
    | (false, c', _) => .stopped 1 (applyUnauthorizedDefault c')

/-- What a route returns: either the literal `{ error: 'Unauthorized' }` body
of a guard rejection, or the value produced by the controller handler. -/
inductive RouteResp (β : Type) where
  | errorBody (error : String)
  | handlerResult (v : β)
  deriving DecidableEq, Repr

/-- Observable outcome of one request through the generated route handler:
final request context, number of `canActivate` invocations performed, and the
returned value. -/
structure RouteOutput (α β : Type) where
  ctx : Ctx α
  invoked : Nat
  resp : RouteResp β
  deriving DecidableEq

/-- Merge of the execution context's data bag into the request context
(`Object.assign(context, executionContext.data)`). -/
def mergeBag {α : Type} (c : Ctx α) (bag : List (String × α)) : Ctx α :=
  { c with fields := applyWrites c.fields bag }

/-- The request-time `routeHandler` built in `createControllerPlugin`: execute
the guards in order on a fresh execution context if there are any, rejecting
with `{ error: 'Unauthorized' }` on the first `false`; otherwise merge the
data bag into the context and call the original handler. -/
def routeHandler {α β : Type} (guards : List (GuardBeh α)) (handler : Ctx α → β)
    (context : Ctx α) : RouteOutput α β :=
  if guards.length > 0 then
    match guardLoop guards context [] with
    | .stopped n c' => { ctx := c', invoked := n, resp := .errorBody "Unauthorized" }
    | .passed c' bag =>
      let merged := mergeBag c' bag
      { ctx := merged, invoked := guards.length, resp := .handlerResult (handler merged) }
  else
    { ctx := context, invoked := 0, resp := .handlerResult (handler context) }

/-- The spec's words for the status after a guard rejection: 401 unless a
status was already set, in which case that status is preserved.  (The source
instead tests JS truthiness, so a status of `0` is *not* preserved; this
definition exists to be compared against the source behaviour.) -/
def specRejectionStatus (s : Option Nat) : Option Nat :=
  match s with
  | none => some 401
  | some v => some v

/-! ### Classes, module metadata and the factory state -/

/-- A class reference: identity (JS reference identity) plus the `name` used in
error messages. -/
structure ClassId where
  id : Nat
  name : String
  deriving DecidableEq, Repr

/-- The `@Module()` metadata read via `Reflect.getMetadata(MODULE_KEY, c)`.
The optional plugin-configuration block is omitted (it only affects the Elysia
app object and the stored JWT config, which no claim observes). -/
structure ModuleMetadata where
  imports : List ClassId
  providers : List ClassId
  controllers : List ClassId
  deriving DecidableEq, Repr

/-- Which classes carry a module descriptor, and what it is. -/
def ModuleEnv : Type := ClassId → Option ModuleMetadata

/-- Role tag of a registered instance. -/
inductive Role where
  | module
  | controller
  | provider
  deriving DecidableEq, Repr

/-- The mutable fields of `ModuleFactory` that the claims observe:
the registered-module `Set` (insertion order), the instance registry, the DI
container's registered classes, and the shutdown latch. -/
structure FactoryState where
  registeredModules : List ClassId
  registeredInstances : List (ClassId × Role)
  containerRegistered : List ClassId
  isShuttingDown : Bool
  deriving DecidableEq, Repr

/-- A fresh `new ModuleFactory()`. -/
def emptyState : FactoryState :=
  { registeredModules := [], registeredInstances := [], containerRegistered := [],
    isShuttingDown := false }

/-- `getRegisteredModules()` (`Array.from` of the set, in insertion order). -/
def getRegisteredModules (st : FactoryState) : List ClassId :=
  st.registeredModules

/-- `registerInstance`: push one record onto the instance registry. -/
def registerInstance (c : ClassId) (r : Role) (st : FactoryState) : FactoryState :=
  { st with registeredInstances := st.registeredInstances ++ [(c, r)] }

/-- Step 2 of `registerModule`: for each declared provider, register it in the
DI container when unknown, then resolve an instance and record it (the record
is appended unconditionally, once per declaration). -/
def registerProviders (providers : List ClassId) (st : FactoryState) : FactoryState :=
  providers.foldl
    (fun st p =>
      let st := if p ∈ st.containerRegistered then st
                else { st with containerRegistered := st.containerRegistered ++ [p] }
      registerInstance p .provider st)
    st

/-- State effect of `createControllerPlugin` per declared controller: container
registration when unknown, then one `controller` record (route mounting and the
JWT plugin affect only the Elysia plugin object). -/
def registerControllers (controllers : List ClassId) (st : FactoryState) : FactoryState :=
  controllers.foldl
    (fun st c =>
      let st := if c ∈ st.containerRegistered then st
                else { st with containerRegistered := st.containerRegistered ++ [c] }
      registerInstance c .controller st)
    st

/-- The error message thrown for a class without `@Module()` metadata. -/
def invalidModuleMessage (m : ClassId) : String :=
  m.name ++ " is not a valid module. Use the @Module() decorator."

/-- The `for (const importedModule of metadata.imports)` loop, abstracted over
the recursive registration call `f`: an error thrown by a recursive
registration aborts the loop and propagates, keeping the state mutated so far. -/
def registerImportsAux (f : ClassId → FactoryState → FactoryState × Option String) :
    List ClassId → FactoryState → FactoryState × Option String
  | [], st => (st, none)
  | i :: rest, st =>
    match f i st with
    | (st', some e) => (st', some e)
    | (st', none) => registerImportsAux f rest st'

/-- `registerModule(moduleClass, app)`: no-op when the class is already in the
registered-module set; otherwise add it to the set *before* the metadata check,
throw when there is no module descriptor, then recursively register imports,
then providers, then controllers, then the module instance record. -/
def registerModule (env : ModuleEnv) : Nat → ClassId → FactoryState →
    FactoryState × Option String
  | 0 => fun _ st => (st, some "recursion fuel exhausted")
  | fuel + 1 => fun moduleClass st =>
    if moduleClass ∈ st.registeredModules then (st, none)
    else
      let st1 := { st with registeredModules := st.registeredModules ++ [moduleClass] }
      match env moduleClass with
      | none => (st1, some (invalidModuleMessage moduleClass))
      | some metadata =>
        match registerImportsAux (registerModule env fuel) metadata.imports st1 with
        | (st2, some e) => (st2, some e)
        | (st2, none) =>
          (registerInstance moduleClass .module
            (registerControllers metadata.controllers
              (registerProviders metadata.providers st2)), none)

/-- The `imports` list of a class (empty when it carries no descriptor). -/
def importsOf (env : ModuleEnv) (m : ClassId) : List ClassId :=
  match env m with
  | none => []
  | some metadata => metadata.imports

/-- The `providers` list of a class (empty when it carries no descriptor). -/
def providersOf (env : ModuleEnv) (m : ClassId) : List ClassId :=
  match env m with
  | none => []
  | some metadata => metadata.providers

/-- Reachability of a module from the root along `imports` edges. -/
inductive Reaches (env : ModuleEnv) : ClassId → ClassId → Prop where
  | refl (m : ClassId) : Reaches env m m
  | tail {a b c : ClassId} : Reaches env a b → c ∈ importsOf env b → Reaches env a c

/-- Number of `provider` records for class `P` in the instance registry. -/
def providerRecordCount (P : ClassId) (st : FactoryState) : Nat :=
  st.registeredInstances.count (P, Role.provider)

/-- Number of times `P` occurs in the provider list declared by module `m`. -/
def declaredProviderCount (env : ModuleEnv) (P m : ClassId) : Nat :=
  (providersOf env m).count P

/-! ### Lifecycle hooks, bootstrap and shutdown -/

/-- The hook names accepted by `callLifecycleHook`. -/
inductive LifecycleHook where
  | onModuleInit
  | onApplicationBootstrap
  | onModuleDestroy
  deriving DecidableEq, Repr

/-- The hook names accepted by `callLifecycleHookWithSignal`. -/
inductive SignalHook where
  | beforeApplicationShutdown
  | onApplicationShutdown
  deriving DecidableEq, Repr

/-- An observable hook invocation. -/
inductive AppEvent where
  | lifecycle (inst : ClassId × Role) (hook : LifecycleHook)
  | signalHook (inst : ClassId × Role) (hook : SignalHook) (signal : String)
  deriving DecidableEq, Repr

/-- `callLifecycleHook`: walk the instance registry in registration order,
awaiting the hook on every instance whose class implements it (the duck-typed
`hasOnModuleInit` etc. checks).  A hook that throws aborts the loop; the
returned Bool is false exactly when that happened. -/
def callLifecycleHook (impl throws : ClassId → LifecycleHook → Bool)
    (hook : LifecycleHook) : List (ClassId × Role) → List AppEvent × Bool
  | [] => ([], true)
  | inst :: rest =>
    if impl inst.1 hook then
      if throws inst.1 hook then ([.lifecycle inst hook], false)
      else
        let r := callLifecycleHook impl throws hook rest
        (.lifecycle inst hook :: r.1, r.2)
    else callLifecycleHook impl throws hook rest

/-- `callLifecycleHookWithSignal`: same loop for the two signal-carrying
shutdown hooks. -/
def callLifecycleHookWithSignal (impl throws : ClassId → SignalHook → Bool)
    (hook : SignalHook) (signal : String) : List (ClassId × Role) → List AppEvent × Bool
  | [] => ([], true)
  | inst :: rest =>
    if impl inst.1 hook then
      if throws inst.1 hook then ([.signalHook inst hook signal], false)
      else
        let r := callLifecycleHookWithSignal impl throws hook signal rest
        (.signalHook inst hook signal :: r.1, r.2)
    else callLifecycleHookWithSignal impl throws hook signal rest

/-- Result of `bootstrap`: final factory state, the rejection (if any) and the
lifecycle-hook invocations performed. -/
structure BootResult where
  state : FactoryState
  error : Option String
  hookEvents : List AppEvent
  deriving DecidableEq, Repr

/-- `bootstrap(rootModule, app, options)`: register the whole module graph
from a fresh state, then run the `onModuleInit` phase, then the
`onApplicationBootstrap` phase.  A registration error rejects before any hook
runs; a throwing hook rejects and aborts the remaining phases.  (Options
merging is modelled by `effectiveIgnoredPaths`; shutdown-handler installation
by `shutdown`.) -/
def bootstrap (env : ModuleEnv) (impl throws : ClassId → LifecycleHook → Bool)
    (fuel : Nat) (rootModule : ClassId) : BootResult :=
  match registerModule env fuel rootModule emptyState with
  | (st, some e) => { state := st, error := some e, hookEvents := [] }
  | (st, none) =>
    let r1 := callLifecycleHook impl throws .onModuleInit st.registeredInstances
    if r1.2 then
      let r2 := callLifecycleHook impl throws .onApplicationBootstrap st.registeredInstances
      { state := st,
        error := if r2.2 then none else some "onApplicationBootstrap hook threw",
        hookEvents := r1.1 ++ r2.1 }
    else { state := st, error := some "onModuleInit hook threw", hookEvents := r1.1 }

/-- Result of one invocation of the `shutdown` closure installed by
`setupShutdownHandlers`: resulting state, hook invocations performed, and the
`process.exit` code (`none` when the latch made the call a no-op). -/
structure ShutdownResult where
  state : FactoryState
  events : List AppEvent
  exitCode : Option Nat
  deriving DecidableEq, Repr

/-- The `try` block of the `shutdown` closure: `onModuleDestroy`, then
`beforeApplicationShutdown(signal)`, then `onApplicationShutdown(signal)`,
each phase aborting the sequence when a hook throws; returns the hook
invocations performed and whether the whole sequence completed. -/
def runShutdownHooks (implL throwsL : ClassId → LifecycleHook → Bool)
    (implS throwsS : ClassId → SignalHook → Bool) (signal : String)
    (insts : List (ClassId × Role)) : List AppEvent × Bool :=
  let r1 := callLifecycleHook implL throwsL .onModuleDestroy insts
  if r1.2 then
    let r2 := callLifecycleHookWithSignal implS throwsS .beforeApplicationShutdown signal insts
    if r2.2 then
      let r3 := callLifecycleHookWithSignal implS throwsS .onApplicationShutdown signal insts
      (r1.1 ++ r2.1 ++ r3.1, r3.2)
    else (r1.1 ++ r2.1, false)
  else (r1.1, false)

/-- Whether some registered instance has a shutdown-sequence hook that throws
(the condition under which the source's catch block runs). -/
def anyShutdownHookThrows (implL throwsL : ClassId → LifecycleHook → Bool)
    (implS throwsS : ClassId → SignalHook → Bool)
    (insts : List (ClassId × Role)) : Bool :=
  insts.any fun i =>
    (implL i.1 .onModuleDestroy && throwsL i.1 .onModuleDestroy) ||
    (implS i.1 .beforeApplicationShutdown && throwsS i.1 .beforeApplicationShutdown) ||
    (implS i.1 .onApplicationShutdown && throwsS i.1 .onApplicationShutdown)

/-- The `shutdown` closure: latched by `isShuttingDown` (set synchronously
before the first suspension point, so any signal delivered after shutdown
began observes the latch); then the hook sequence; `process.exit(0)` on
success and `process.exit(1)` when any hook threw. -/
def shutdown (implL throwsL : ClassId → LifecycleHook → Bool)
    (implS throwsS : ClassId → SignalHook → Bool) (signal : String)
    (st : FactoryState) : ShutdownResult :=
  if st.isShuttingDown then { state := st, events := [], exitCode := none }
  else
    let st' := { st with isShuttingDown := true }
    let run := runShutdownHooks implL throwsL implS throwsS signal st'.registeredInstances
    { state := st', events := run.1, exitCode := some (if run.2 then 0 else 1) }

/-! ### The default error handler and ignored paths -/

/-- `DEFAULT_IGNORED_PATHS`. -/
def DEFAULT_IGNORED_PATHS : List String :=
  ["/favicon.ico", "/robots.txt", "/apple-touch-icon.png", "/apple-touch-icon-precomposed.png"]

/-- The caller-supplied `ignoredPaths` bootstrap option (`options?.ignoredPaths || []`). -/
structure BootstrapOptionsArg where
  ignoredPaths : Option (List String)
  deriving DecidableEq, Repr

/-- The `options?.ignoredPaths || []` subexpression of the merge. -/
def suppliedIgnoredPaths (options : Option BootstrapOptionsArg) : List String :=
  match options with
  | none => []
  | some o => o.ignoredPaths.getD []

/-- The `ignoredPaths` value computed by the options merge in `bootstrap`:
`[...DEFAULT_IGNORED_PATHS, ...(options?.ignoredPaths || [])]`. -/
def effectiveIgnoredPaths (options : Option BootstrapOptionsArg) : List String :=
  DEFAULT_IGNORED_PATHS ++ suppliedIgnoredPaths options

/-- One field-level issue of a parsed validation error (`{path?, message}`). -/
structure Issue where
  path : Option (List String)
  message : String
  deriving DecidableEq, Repr

/-- Outcome of `JSON.parse(error.message)` in the validation branch, at the
shape the handler inspects: failure, or an object with optional `errors`
(issue list), `property` and `message` fields. -/
inductive ParseOutcome where
  | failed
  | parsed (errorsField : Option (List Issue)) (propertyField : Option String)
      (messageField : Option String)
  deriving DecidableEq, Repr

/-- Response bodies returned by the default error handler. -/
inductive RespBody where
  | routeNotFound (path : String)
  | validationErr (message : String) (details : List Issue)
  | generic (message : String)
  deriving DecidableEq, Repr

/-- Internal-logger calls the handler performs. -/
inductive LogEvent where
  | warn (context msg : String)
  | errorLog (context msg : String)
  deriving DecidableEq, Repr

/-- What one call of the error handler does: the status it assigns to `set`,
the body it returns (`none` for a bare `return`), and what it logged. -/
structure HandlerResult where
  status : Option Nat
  body : Option RespBody
  logs : List LogEvent
  deriving DecidableEq, Repr

/-- The JS field-name computation
`e.path?.join('.') || validationDetails.property || 'unknown'` (an empty join
and an empty property string are falsy). -/
def jsFieldName (propertyField : Option String) (e : Issue) : String :=
  let fallback := match propertyField with
    | some p => if p = "" then "unknown" else p
    | none => "unknown"
  match e.path with
  | some l => if String.intercalate "." l = "" then fallback else String.intercalate "." l
  | none => fallback

/-- `defaultErrorHandler`: NOT_FOUND branch (ignored-path suppression or a
warning plus `{error, path}` body), VALIDATION branch (best-effort structured
parse of the error message), and the 500 fallthrough. -/
def defaultErrorHandler (ignoredPaths : List String) (code : String)
    (method path errMessage : String) (parsed : ParseOutcome) : HandlerResult :=
  if code = "NOT_FOUND" then
    if path ∈ ignoredPaths then { status := some 404, body := none, logs := [] }
    else
      { status := some 404, body := some (.routeNotFound path),
        logs := [.warn "RouterExplorer" ("Route not found: " ++ method ++ " " ++ path)] }
  else if code = "VALIDATION" then
    let errorMessage :=
      match parsed with
      | .failed => errMessage
      | .parsed (some issues) propertyField _ =>
        String.intercalate ", "
          (issues.map fun e => jsFieldName propertyField e ++ ": " ++ e.message)
      | .parsed none _ messageField =>
        match messageField with
        | some m => if m = "" then errMessage else m
        | none => errMessage
    let details :=
      match parsed with
      | .parsed (some issues) _ _ => issues
      | _ => []
    { status := some 400, body := some (.validationErr errorMessage details),
      logs := [.errorLog "ValidationPipe" ("Validation failed - " ++ errorMessage)] }
  else
    { status := some 500, body := some (.generic errMessage),
      logs := [.errorLog "ExceptionHandler" errMessage] }

/-! ### Route decorators (`createRouteDecorator` in http-methods.decorator.ts) -/

/-- One entry of the per-controller `ROUTES_KEY` metadata list (validation
options and guards omitted: they do not affect how many descriptors exist). -/
structure RouteMetadataRec where
  method : String
  path : String
  handlerName : String
  deriving DecidableEq, Repr

/-- One application of an HTTP-method decorator to a handler: fetch the
controller's route list and push a new descriptor (no deduplication). -/
def createRouteDecorator (method path handlerName : String)
    (routes : List RouteMetadataRec) : List RouteMetadataRec :=
  routes ++ [{ method := method, path := path, handlerName := handlerName }]

/-- Apply a sequence of decorator applications `(method, path, handlerName)`
to a controller's route metadata, in evaluation order. -/
def applyRouteDecorators (ds : List (String × String × String))
    (routes : List RouteMetadataRec) : List RouteMetadataRec :=
  ds.foldl (fun rs d => createRouteDecorator d.1 d.2.1 d.2.2 rs) routes

/-- Number of route descriptors recorded for a given handler name. -/
def descriptorCount (handlerName : String) (routes : List RouteMetadataRec) : Nat :=
  (routes.filter (fun r => r.handlerName = handlerName)).length

/-! ### Concrete inputs used by witnesses and counterexamples -/

/-- A guard that passes without touching anything. -/
def gPass : GuardBeh Nat := fun _ _ => { result := true, setStatus := none, bagWrites := [] }

/-- A guard that sets `set.status = 403` and returns false. -/
def gFail403 : GuardBeh Nat :=
  fun _ _ => { result := false, setStatus := some (some 403), bagWrites := [] }

/-- A guard placed after a failing one (is never invoked). -/
def gNever : GuardBeh Nat := fun _ _ => { result := true, setStatus := none, bagWrites := [] }

/-- A guard that sets `set.status = 0` (a set status that is JS-falsy) and
returns false. -/
def gZeroStatus : GuardBeh Nat :=
  fun _ _ => { result := false, setStatus := some (some 0), bagWrites := [] }

/-- A guard that writes `data.user = 42` and passes. -/
def gWriter : GuardBeh Nat :=
  fun _ _ => { result := true, setStatus := none, bagWrites := [("user", 42)] }

/-- A request context with no status set and no dynamic fields. -/
def cW : Ctx Nat := { set := { status := none }, fields := [] }

/-- The context after `gFail403` ran on `cW`. -/
def cW403 : Ctx Nat := { set := { status := some 403 }, fields := [] }

/-- Diamond module graph whose shared module and root both declare the same
provider class. -/
def clsRoot : ClassId := { id := 0, name := "AppModule" }

/-- Left branch of the diamond. -/
def clsA : ClassId := { id := 1, name := "AModule" }

/-- Right branch of the diamond. -/
def clsB : ClassId := { id := 2, name := "BModule" }

/-- The module reached along two paths. -/
def clsM : ClassId := { id := 3, name := "SharedModule" }

/-- The provider class declared by both `clsM` and `clsRoot`. -/
def clsP : ClassId := { id := 4, name := "SharedService" }

/-- Root imports A and B; A and B both import M; M declares provider P and so
does the root. -/
def diamondEnv : ModuleEnv := fun c =>
  if c = clsRoot then some { imports := [clsA, clsB], providers := [clsP], controllers := [] }
  else if c = clsA then some { imports := [clsM], providers := [], controllers := [] }
  else if c = clsB then some { imports := [clsM], providers := [], controllers := [] }
  else if c = clsM then some { imports := [], providers := [clsP], controllers := [] }
  else none

/-- A class that carries no `@Module()` metadata. -/
def badModule : ClassId := { id := 7, name := "NotAModule" }

/-- A metadata store in which no class has a module descriptor. -/
def envNone : ModuleEnv := fun _ => none

/-- Root module of the lifecycle witness graph. -/
def clsHRoot : ClassId := { id := 20, name := "HookModule" }

/-- First provider of the lifecycle witness graph. -/
def clsSvc1 : ClassId := { id := 21, name := "Svc1" }

/-- Second provider of the lifecycle witness graph. -/
def clsSvc2 : ClassId := { id := 22, name := "Svc2" }

/-- A root module declaring two providers. -/
def envHooks : ModuleEnv := fun c =>
  if c = clsHRoot then
    some { imports := [], providers := [clsSvc1, clsSvc2], controllers := [] }
  else none

/-- Every class implements every lifecycle hook. -/
def implAllL : ClassId → LifecycleHook → Bool := fun _ _ => true

/-- No lifecycle hook throws. -/
def throwsNoneL : ClassId → LifecycleHook → Bool := fun _ _ => false

/-- Every class implements every signal hook. -/
def implAllS : ClassId → SignalHook → Bool := fun _ _ => true

/-- No signal hook throws. -/
def throwsNoneS : ClassId → SignalHook → Bool := fun _ _ => false

/-- A factory state, as left by a bootstrap, holding one provider instance. -/
def stShut : FactoryState :=
  { registeredModules := [clsHRoot],
    registeredInstances := [(clsSvc1, .provider), (clsHRoot, .module)],
    containerRegistered := [clsSvc1], isShuttingDown := false }

/-- The spec's P7 example issue `{path: ["email"], message: "Invalid email"}`. -/
def issueEmail : Issue := { path := some ["email"], message := "Invalid email" }

/-! ## Theorems -/

@[simp] theorem entryKeys_nil {α : Type} : entryKeys ([] : List (String × α)) = [] := rfl

@[simp] theorem entryKeys_cons {α : Type} (p : String × α) (l : List (String × α)) :
    entryKeys (p :: l) = p.1 :: entryKeys l := rfl

theorem lookupEntry_setEntry_self {α : Type} (m : List (String × α)) (k : String) (v : α) :
    lookupEntry (setEntry m k v) k = some v := by
  induction m with
  | nil => simp [setEntry, lookupEntry]
  | cons hd tl ih =>
    by_cases h : hd.1 = k
    · simp [setEntry, lookupEntry, h]
    · simp [setEntry, lookupEntry, h, ih]

theorem lookupEntry_setEntry_ne {α : Type} (m : List (String × α)) (k k' : String) (v : α)
    (h : k' ≠ k) : lookupEntry (setEntry m k v) k' = lookupEntry m k' := by
  have hkk : ¬ k = k' := fun he => h he.symm
  induction m with
  | nil => simp [setEntry, lookupEntry, hkk]
  | cons hd tl ih =>
    by_cases hh : hd.1 = k
    · subst hh
      simp [setEntry, lookupEntry, hkk]
    · simp only [setEntry, hh, if_false]
      by_cases hk : hd.1 = k'
      · simp [lookupEntry, hk]
      · simp [lookupEntry, hk, ih]

theorem entryKeys_setEntry {α : Type} (m : List (String × α)) (k : String) (v : α) :
    entryKeys (setEntry m k v) =
      if k ∈ entryKeys m then entryKeys m else entryKeys m ++ [k] := by
  induction m with
  | nil => simp [setEntry]
  | cons hd tl ih =>
    by_cases h : hd.1 = k
    · subst h
      simp [setEntry]
    · have hne : ¬ k = hd.1 := fun hk => h hk.symm
      simp only [setEntry, h, if_false, entryKeys_cons, ih]
      by_cases hm : k ∈ entryKeys tl
      · simp [List.mem_cons, hne, hm]
      · simp [List.mem_cons, hne, hm]

theorem nodup_entryKeys_setEntry {α : Type} (m : List (String × α)) (k : String) (v : α)
    (h : (entryKeys m).Nodup) : (entryKeys (setEntry m k v)).Nodup := by
  rw [entryKeys_setEntry]
  by_cases hm : k ∈ entryKeys m
  · simpa [hm] using h
  · simp only [hm, if_false]
    rw [List.nodup_append]
    refine ⟨h, List.nodup_singleton k, ?_⟩
    intro a ha hak
    simp only [List.mem_singleton] at hak
    exact hm (hak ▸ ha)

theorem nodup_entryKeys_applyWrites {α : Type} (m : List (String × α))
    (ws : List (String × α)) (h : (entryKeys m).Nodup) :
    (entryKeys (applyWrites m ws)).Nodup := by
  induction ws generalizing m with
  | nil => simpa [applyWrites]
  | cons w rest ih =>
    simpa [applyWrites] using ih (setEntry m w.1 w.2) (nodup_entryKeys_setEntry m w.1 w.2 h)

/-- Looking a key up after folding a bag of writes into an object: bindings of
the bag win, other keys fall through to the original object.  Requires the
bag's keys to be duplicate-free (which holds for any bag built by JS property
assignments starting from `{}`). -/
theorem lookupEntry_applyWrites {α : Type} (m : List (String × α))
    (bag : List (String × α)) (hnd : (entryKeys bag).Nodup) (k : String) :
    lookupEntry (applyWrites m bag) k =
      if k ∈ entryKeys bag then lookupEntry bag k else lookupEntry m k := by
  induction bag generalizing m with
  | nil => simp [applyWrites]
  | cons b rest ih =>
    have hnd' : (entryKeys rest).Nodup := (List.nodup_cons.mp (by simpa using hnd)).2
    have hbnotin : b.1 ∉ entryKeys rest := (List.nodup_cons.mp (by simpa using hnd)).1
    have step : applyWrites m (b :: rest) = applyWrites (setEntry m b.1 b.2) rest := rfl
    rw [step, ih (setEntry m b.1 b.2) hnd']
    by_cases hkb : k = b.1
    · subst hkb
      rw [if_neg hbnotin, lookupEntry_setEntry_self,
        if_pos (by simp : b.1 ∈ entryKeys (b :: rest))]
      simp [lookupEntry]
    · have hbk : ¬ b.1 = k := fun h => hkb h.symm
      by_cases hk : k ∈ entryKeys rest
      · rw [if_pos hk, if_pos (by simp [List.mem_cons, hk] : k ∈ entryKeys (b :: rest))]
        simp [lookupEntry, hbk]
      · rw [if_neg hk,
          if_neg (by simp [List.mem_cons, hkb, hk] : ¬ k ∈ entryKeys (b :: rest))]
        exact lookupEntry_setEntry_ne m b.1 k b.2 hkb

theorem guardLoop_prefix_fail {α : Type} (gs₁ gs₂ : List (GuardBeh α)) (g : GuardBeh α)
    (c c₁ c₂ : Ctx α) (bag b₁ b₂ : List (String × α))
    (hpre : guardLoop gs₁ c bag = .passed c₁ b₁)
    (hfail : applyGuard g c₁ b₁ = (false, c₂, b₂)) :
    guardLoop (gs₁ ++ g :: gs₂) c bag =
      .stopped (gs₁.length + 1) (applyUnauthorizedDefault c₂) := by
  induction gs₁ generalizing c bag with
  | nil =>
    simp only [guardLoop] at hpre
    cases hpre
    simp [guardLoop, hfail]
  | cons g₀ gs₁ ih =>
    simp only [guardLoop] at hpre
    rcases happ : applyGuard g₀ c bag with ⟨ok, ca, ba⟩
    rw [happ] at hpre
    cases ok with
    | false => simp at hpre
    | true =>
      simp only at hpre
      cases hrec : guardLoop gs₁ ca ba with
      | stopped n cs => rw [hrec] at hpre; simp at hpre
      | passed cs bs =>
        rw [hrec] at hpre
        simp only [GuardsOutcome.passed.injEq] at hpre
        obtain ⟨hc, hb⟩ := hpre
        subst hc; subst hb
        have hstep : guardLoop ((g₀ :: gs₁) ++ g :: gs₂) c bag =
            match guardLoop (gs₁ ++ g :: gs₂) ca ba with
            | .stopped n c'' => .stopped (n + 1) c''
            | .passed c'' bag'' => .passed c'' bag'' := by
          simp only [List.cons_append, guardLoop, happ]
          rfl
        rw [hstep, ih ca ba hrec]
        rfl

theorem guardLoop_split_passed {α : Type} (gs₁ gs₂ : List (GuardBeh α)) (g : GuardBeh α)
    (c c' c₁ : Ctx α) (bag b' b₁ : List (String × α))
    (hfull : guardLoop (gs₁ ++ g :: gs₂) c bag = .passed c' b')
    (hpre : guardLoop gs₁ c bag = .passed c₁ b₁) :
    (applyGuard g c₁ b₁).1 = true ∧ guardLoop (g :: gs₂) c₁ b₁ = .passed c' b' := by
  induction gs₁ generalizing c bag with
  | nil =>
    simp only [guardLoop, GuardsOutcome.passed.injEq] at hpre
    obtain ⟨hc, hb⟩ := hpre
    subst hc; subst hb
    simp only [List.nil_append] at hfull
    refine ⟨?_, hfull⟩
    simp only [guardLoop] at hfull
    rcases happ : applyGuard g c bag with ⟨ok, ca, ba⟩
    rw [happ] at hfull
    cases ok with
    | false => simp at hfull
    | true => simp
  | cons g₀ gs₁ ih =>
    simp only [guardLoop] at hpre
    have hfull' : guardLoop (g₀ :: (gs₁ ++ g :: gs₂)) c bag = .passed c' b' := by
      simpa using hfull
    simp only [guardLoop] at hfull'
    rcases happ : applyGuard g₀ c bag with ⟨ok, ca, ba⟩
    rw [happ] at hpre hfull'
    cases ok with
    | false => simp at hpre
    | true =>
      simp only at hpre hfull'
      cases hrec : guardLoop gs₁ ca ba with
      | stopped n cs => rw [hrec] at hpre; simp at hpre
      | passed cs bs =>
        rw [hrec] at hpre
        simp only [GuardsOutcome.passed.injEq] at hpre
        obtain ⟨hc, hb⟩ := hpre
        subst hc; subst hb
        cases hrec2 : guardLoop (gs₁ ++ g :: gs₂) ca ba with
        | stopped n cs2 => rw [hrec2] at hfull'; simp at hfull'
        | passed cs2 bs2 =>
          rw [hrec2] at hfull'
          simp only [GuardsOutcome.passed.injEq] at hfull'
          obtain ⟨hc2, hb2⟩ := hfull'
          subst hc2; subst hb2
          exact ih ca ba hrec2 hrec

theorem lookupEntry_some_mem {α : Type} (l : List (String × α)) (k : String) (v : α)
    (h : lookupEntry l k = some v) : k ∈ entryKeys l := by
  induction l with
  | nil => simp [lookupEntry] at h
  | cons hd tl ih =>
    by_cases hk : hd.1 = k
    · simp [hk, List.mem_cons]
    · simp only [lookupEntry, hk, if_false] at h
      simp [List.mem_cons, ih h]

theorem guardLoop_passed_nodup {α : Type} (gs : List (GuardBeh α)) (c c' : Ctx α)
    (bag bag' : List (String × α)) (h : guardLoop gs c bag = .passed c' bag')
    (hnd : (entryKeys bag).Nodup) : (entryKeys bag').Nodup := by
  induction gs generalizing c bag with
  | nil =>
    simp only [guardLoop] at h
    cases h
    exact hnd
  | cons g gs ih =>
    simp only [guardLoop] at h
    rcases happ : applyGuard g c bag with ⟨ok, c₁, bag₁⟩
    rw [happ] at h
    cases ok with
    | false => simp at h
    | true =>
      simp only at h
      cases hrec : guardLoop gs c₁ bag₁ with
      | stopped n cs => rw [hrec] at h; simp at h
      | passed cs bs =>
        rw [hrec] at h
        simp only [GuardsOutcome.passed.injEq] at h
        obtain ⟨hc, hb⟩ := h
        subst hc; subst hb
        refine ih c₁ bag₁ hrec ?_
        have : bag₁ = applyWrites bag (g c bag).bagWrites := by
          have := congrArg (Prod.snd ∘ Prod.snd) happ
          simpa [applyGuard] using this.symm
        rw [this]
        exact nodup_entryKeys_applyWrites bag _ hnd

/-- C1 (amended): on a guarded route, when the guards before `g` all pass and
`g` returns false, exactly `gs₁.length + 1` guard invocations happen (no later
guard's `canActivate` runs), the handler is not invoked, the body is
`{error: 'Unauthorized'}`, and the response status is the one left by the
guards whenever that status is JS-truthy (nonzero); a missing *or zero* status
is replaced by 401 — the source's `!set.status` test does not preserve a
status of 0. -/
theorem guard_short_circuit {α β : Type} (gs₁ gs₂ : List (GuardBeh α)) (g : GuardBeh α)
    (handler : Ctx α → β) (c c₁ c₂ : Ctx α) (b₁ b₂ : List (String × α))
    (hpre : guardLoop gs₁ c [] = .passed c₁ b₁)
    (hfail : applyGuard g c₁ b₁ = (false, c₂, b₂)) :
    routeHandler (gs₁ ++ g :: gs₂) handler c =
      { ctx := applyUnauthorizedDefault c₂, invoked := gs₁.length + 1,
        resp := .errorBody "Unauthorized" } ∧
    (statusFalsy c₂.set.status = false →
      (applyUnauthorizedDefault c₂).set.status = c₂.set.status) ∧
    (statusFalsy c₂.set.status = true →
      (applyUnauthorizedDefault c₂).set.status = some 401) := by
  have hloop := guardLoop_prefix_fail gs₁ gs₂ g c c₁ c₂ [] b₁ b₂ hpre hfail
  refine ⟨?_, ?_, ?_⟩
  · have hpos : 0 < (gs₁ ++ g :: gs₂).length := by simp
    simp only [routeHandler]
    rw [if_pos hpos, hloop]
  · intro h
    simp [applyUnauthorizedDefault, h]
  · intro h
    simp [applyUnauthorizedDefault, h]

/-- C1 counterexample: a guard that assigns `set.status = 0` and returns false
*has* set a status on the response holder, and the claim
(`specRejectionStatus`) says that status is preserved; but the source's
JS-truthiness test `!set.status` treats 0 like an unset status and replaces it
with 401. -/
theorem guard_status_zero_not_preserved :
    (applyGuard gZeroStatus cW []).2.1.set.status = some 0 ∧
    (routeHandler [gZeroStatus] (fun c => c.fields.length) cW).ctx.set.status = some 401 ∧
    specRejectionStatus (some 0) = some 0 ∧
    ((some 401 : Option Nat) ≠ some 0) := by
  refine ⟨rfl, by decide, rfl, by decide⟩

/-- C1 witness: with guards [pass, fail-with-403, never-reached], the route
rejects after two invocations with body `{error: 'Unauthorized'}` and the
403 written by the failing guard is preserved. -/
theorem guard_short_circuit_witness :
    (guardLoop [gPass] cW [] = .passed cW []) ∧
    (applyGuard gFail403 cW [] = (false, cW403, [])) ∧
    routeHandler [gPass, gFail403, gNever] (fun c : Ctx Nat => c.fields.length) cW =
      { ctx := applyUnauthorizedDefault cW403, invoked := 2,
        resp := .errorBody "Unauthorized" } ∧
    (applyUnauthorizedDefault cW403).set.status = some 403 := by
  have hpre : guardLoop [gPass] cW [] = .passed cW [] := by decide
  have hfail : applyGuard gFail403 cW [] = (false, cW403, []) := by decide
  refine ⟨hpre, hfail, ?_, by decide⟩
  exact (guard_short_circuit [gPass] [gNever] gFail403
    (fun c : Ctx Nat => c.fields.length) cW cW cW403 [] [] hpre hfail).1

/-- C3: when every guard of a route passes, the route handler is invoked on
the request context with the execution context's data bag merged in
(`Object.assign`), so every binding of the final data bag is observable by the
handler; moreover each guard placed after a prefix of passing guards is
invoked on exactly the data bag those guards produced, so later guards observe
earlier guards' writes. -/
theorem guard_data_propagation {α β : Type} (gs : List (GuardBeh α)) (handler : Ctx α → β)
    (c c' : Ctx α) (bag : List (String × α))
    (hpass : guardLoop gs c [] = .passed c' bag) :
    routeHandler gs handler c =
      { ctx := mergeBag c' bag, invoked := gs.length,
        resp := .handlerResult (handler (mergeBag c' bag)) } ∧
    (∀ k v, lookupEntry bag k = some v →
      lookupEntry (mergeBag c' bag).fields k = some v) ∧
    (∀ gs₁ g gs₂, gs = gs₁ ++ g :: gs₂ →
      ∀ c₁ b₁, guardLoop gs₁ c [] = .passed c₁ b₁ →
        (applyGuard g c₁ b₁).1 = true ∧ guardLoop (g :: gs₂) c₁ b₁ = .passed c' bag) := by
  refine ⟨?_, ?_, ?_⟩
  · cases gs with
    | nil =>
      simp only [guardLoop, GuardsOutcome.passed.injEq] at hpass
      obtain ⟨hc, hb⟩ := hpass
      subst hc; subst hb
      rfl
    | cons g gs =>
      have hpos : 0 < (g :: gs).length := by simp
      simp only [routeHandler]
      rw [if_pos hpos, hpass]
  · intro k v hkv
    have hnd : (entryKeys bag).Nodup :=
      guardLoop_passed_nodup gs c c' [] bag hpass (by simp)
    have hmem : k ∈ entryKeys bag := lookupEntry_some_mem bag k v hkv
    simp only [mergeBag]
    rw [lookupEntry_applyWrites c'.fields bag hnd k, if_pos hmem]
    exact hkv
  · intro gs₁ g gs₂ heq c₁ b₁ h₁
    subst heq
    exact guardLoop_split_passed gs₁ gs₂ g c c' c₁ [] bag b₁ hpass h₁

/-- C3 witness: a guard writes `data.user = 42`; the handler invoked afterward
observes `context.user = 42`. -/
theorem guard_data_propagation_witness :
    (guardLoop [gWriter] cW [] = .passed cW [("user", 42)]) ∧
    lookupEntry (mergeBag cW [("user", 42)]).fields "user" = some 42 ∧
    routeHandler [gWriter] (fun c : Ctx Nat => lookupEntry c.fields "user") cW =
      { ctx := mergeBag cW [("user", 42)], invoked := 1,
        resp := .handlerResult (some 42) } := by
  have hpass : guardLoop [gWriter] cW [] = .passed cW [("user", 42)] := by decide
  have h := guard_data_propagation [gWriter]
    (fun c : Ctx Nat => lookupEntry c.fields "user") cW cW [("user", 42)] hpass
  refine ⟨hpass, h.2.1 "user" 42 (by decide), ?_⟩
  rw [h.1]
  decide

/-- C9 counterexample: applying two HTTP-method decorators (say `@Get` and
`@Post`) to the same handler records two descriptors for that
(controller, handler-name) pair — `createRouteDecorator` pushes a descriptor
unconditionally, with no per-handler deduplication. -/
theorem route_descriptor_duplicate :
    descriptorCount "handle"
      (applyRouteDecorators [("get", "", "handle"), ("post", "", "handle")] []) = 2 ∧
    ¬ (descriptorCount "handle"
        (applyRouteDecorators [("get", "", "handle"), ("post", "", "handle")] []) ≤ 1) := by
  decide

/-- C9 (amended): each HTTP-method decorator application appends exactly one
descriptor, so the route-descriptor list holds one descriptor *per decorator
application*: the number of descriptors for a (controller, handler-name) pair
equals the number of decorator applications targeting that handler, and is not
capped at one. -/
theorem route_descriptor_per_decorator (ds : List (String × String × String)) (h : String) :
    descriptorCount h (applyRouteDecorators ds []) =
      (ds.filter (fun d => d.2.2 = h)).length := by
  have key : ∀ (ds : List (String × String × String)) (rs : List RouteMetadataRec),
      descriptorCount h (applyRouteDecorators ds rs) =
        descriptorCount h rs + (ds.filter (fun d => d.2.2 = h)).length := by
    intro ds
    induction ds with
    | nil => intro rs; simp [applyRouteDecorators]
    | cons d rest ih =>
      intro rs
      have hstep : applyRouteDecorators (d :: rest) rs =
          applyRouteDecorators rest (createRouteDecorator d.1 d.2.1 d.2.2 rs) := rfl
      rw [hstep, ih]
      by_cases hd : d.2.2 = h
      · simp [descriptorCount, createRouteDecorator, List.filter_append,
          List.filter_cons, hd]
        omega
      · simp [descriptorCount, createRouteDecorator, List.filter_append,
          List.filter_cons, hd]
  simpa [descriptorCount] using key ds []

/-- C7: a validation failure maps to status 400 and body
`{error: 'Validation error', message, details}`: when the error message parsed
as JSON carrying a field-issue list (each issue's path present and joining to
a nonempty string), the message joins the issues as `field: message, ...` with
`field` the `.`-joined path and `details` is that issue list; when parsing
fails, the message falls back to the raw error message and details to the
empty list, still with status 400. -/
theorem validation_error_shape (ign : List String) (method p raw : String)
    (issues : List Issue) (propF msgF : Option String)
    (hpaths : ∀ e ∈ issues, ∃ l, e.path = some l ∧ String.intercalate "." l ≠ "") :
    defaultErrorHandler ign "VALIDATION" method p raw (.parsed (some issues) propF msgF) =
      { status := some 400,
        body := some (.validationErr
          (String.intercalate ", "
            (issues.map fun e => String.intercalate "." (e.path.getD []) ++ ": " ++ e.message))
          issues),
        logs := [.errorLog "ValidationPipe" ("Validation failed - " ++
          String.intercalate ", "
            (issues.map fun e => String.intercalate "." (e.path.getD []) ++ ": " ++ e.message))] } ∧
    defaultErrorHandler ign "VALIDATION" method p raw .failed =
      { status := some 400, body := some (.validationErr raw []),
        logs := [.errorLog "ValidationPipe" ("Validation failed - " ++ raw)] } := by
  have hmap : issues.map (fun e => jsFieldName propF e ++ ": " ++ e.message) =
      issues.map (fun e => String.intercalate "." (e.path.getD []) ++ ": " ++ e.message) := by
    refine List.map_congr_left ?_
    intro e he
    obtain ⟨l, hl, hne⟩ := hpaths e he
    simp [jsFieldName, hl, hne]
  constructor
  · simp [defaultErrorHandler, hmap]
  · simp [defaultErrorHandler]

/-- C7 witness: the spec's example issue `{path: ["email"], message: "Invalid
email"}` produces status 400 and the message `email: Invalid email`. -/
theorem validation_error_shape_witness :
    (∀ e ∈ [issueEmail], ∃ l, e.path = some l ∧ String.intercalate "." l ≠ "") ∧
    defaultErrorHandler [] "VALIDATION" "POST" "/users" "raw"
        (.parsed (some [issueEmail]) none none) =
      { status := some 400,
        body := some (.validationErr
          (String.intercalate ", "
            ([issueEmail].map fun e =>
              String.intercalate "." (e.path.getD []) ++ ": " ++ e.message))
          [issueEmail]),
        logs := [.errorLog "ValidationPipe" ("Validation failed - " ++
          String.intercalate ", "
            ([issueEmail].map fun e =>
              String.intercalate "." (e.path.getD []) ++ ": " ++ e.message))] } ∧
    String.intercalate ", "
        ([issueEmail].map fun e =>
          String.intercalate "." (e.path.getD []) ++ ": " ++ e.message) =
      "email: Invalid email" := by
  have hp : ∀ e ∈ [issueEmail], ∃ l, e.path = some l ∧ String.intercalate "." l ≠ "" := by
    intro e he
    simp only [List.mem_singleton] at he
    subst he
    exact ⟨["email"], rfl, by decide⟩
  exact ⟨hp,
    (validation_error_shape [] "POST" "/users" "raw" [issueEmail] none none hp).1,
    by decide⟩

/-- C8: the effective ignored-path list produced by the bootstrap options merge
is the union of the built-in defaults and the caller-supplied paths (never a
replacement); a NOT_FOUND on a path in that list yields status 404 with no
body and no log, and on any other path yields 404 with body
`{error: 'Route not found', path}` plus a warning log. -/
theorem ignored_paths_union_suppression (options : Option BootstrapOptionsArg)
    (p method raw : String) (parsed : ParseOutcome) :
    (p ∈ effectiveIgnoredPaths options ↔
      p ∈ DEFAULT_IGNORED_PATHS ∨ p ∈ suppliedIgnoredPaths options) ∧
    (p ∈ effectiveIgnoredPaths options →
      defaultErrorHandler (effectiveIgnoredPaths options) "NOT_FOUND" method p raw parsed =
        { status := some 404, body := none, logs := [] }) ∧
    (p ∉ effectiveIgnoredPaths options →
      defaultErrorHandler (effectiveIgnoredPaths options) "NOT_FOUND" method p raw parsed =
        { status := some 404, body := some (.routeNotFound p),
          logs := [.warn "RouterExplorer"
            ("Route not found: " ++ method ++ " " ++ p)] }) := by
  refine ⟨List.mem_append, ?_, ?_⟩
  · intro h
    simp [defaultErrorHandler, h]
  · intro h
    simp [defaultErrorHandler, h]

/-- C8 witness: with caller-supplied `ignoredPaths = ["/health"]`, both
`/favicon.ico` (a default) and `/health` are suppressed, while `/api/users`
takes the warning-log path. -/
theorem ignored_paths_union_suppression_witness :
    ("/favicon.ico" ∈ effectiveIgnoredPaths (some { ignoredPaths := some ["/health"] })) ∧
    defaultErrorHandler (effectiveIgnoredPaths (some { ignoredPaths := some ["/health"] }))
        "NOT_FOUND" "GET" "/favicon.ico" "raw" .failed =
      { status := some 404, body := none, logs := [] } ∧
    ("/health" ∈ effectiveIgnoredPaths (some { ignoredPaths := some ["/health"] })) ∧
    ("/api/users" ∉ effectiveIgnoredPaths (some { ignoredPaths := some ["/health"] })) ∧
    defaultErrorHandler (effectiveIgnoredPaths (some { ignoredPaths := some ["/health"] }))
        "NOT_FOUND" "GET" "/api/users" "raw" .failed =
      { status := some 404, body := some (.routeNotFound "/api/users"),
        logs := [.warn "RouterExplorer" ("Route not found: " ++ "GET" ++ " " ++ "/api/users")] } := by
  refine ⟨by decide, ?_, by decide, by decide, ?_⟩
  · exact (ignored_paths_union_suppression (some { ignoredPaths := some ["/health"] })
      "/favicon.ico" "GET" "raw" .failed).2.1 (by decide)
  · exact (ignored_paths_union_suppression (some { ignoredPaths := some ["/health"] })
      "/api/users" "GET" "raw" .failed).2.2 (by decide)

theorem list_any_orb {γ : Type} (l : List γ) (p q : γ → Bool) :
    (l.any fun x => p x || q x) = (l.any p || l.any q) := by
  induction l with
  | nil => rfl
  | cons x xs ih =>
    simp only [List.any_cons, ih]
    cases p x <;> cases q x <;> simp

theorem callLifecycleHook_ok_iff (impl throws : ClassId → LifecycleHook → Bool)
    (hook : LifecycleHook) (l : List (ClassId × Role)) :
    (callLifecycleHook impl throws hook l).2 =
      !(l.any fun i => impl i.1 hook && throws i.1 hook) := by
  induction l with
  | nil => simp [callLifecycleHook]
  | cons i rest ih =>
    by_cases h1 : impl i.1 hook
    · by_cases h2 : throws i.1 hook
      · simp [callLifecycleHook, h1, h2]
      · simp [callLifecycleHook, h1, h2, ih]
    · simp [callLifecycleHook, h1, ih]

theorem callSignalHook_ok_iff (impl throws : ClassId → SignalHook → Bool)
    (hook : SignalHook) (signal : String) (l : List (ClassId × Role)) :
    (callLifecycleHookWithSignal impl throws hook signal l).2 =
      !(l.any fun i => impl i.1 hook && throws i.1 hook) := by
  induction l with
  | nil => simp [callLifecycleHookWithSignal]
  | cons i rest ih =>
    by_cases h1 : impl i.1 hook
    · by_cases h2 : throws i.1 hook
      · simp [callLifecycleHookWithSignal, h1, h2]
      · simp [callLifecycleHookWithSignal, h1, h2, ih]
    · simp [callLifecycleHookWithSignal, h1, ih]

/-- When no hook of the phase throws, the phase performs exactly one
invocation per implementing instance, in registration order. -/
theorem callLifecycleHook_events_of_ok (impl throws : ClassId → LifecycleHook → Bool)
    (hook : LifecycleHook) (l : List (ClassId × Role))
    (h : (callLifecycleHook impl throws hook l).2 = true) :
    (callLifecycleHook impl throws hook l).1 =
      (l.filter fun i => impl i.1 hook).map fun i => AppEvent.lifecycle i hook := by
  induction l with
  | nil => simp [callLifecycleHook]
  | cons i rest ih =>
    by_cases h1 : impl i.1 hook
    · by_cases h2 : throws i.1 hook
      · exfalso
        simp [callLifecycleHook, h1, h2] at h
      · have hrest : (callLifecycleHook impl throws hook rest).2 = true := by
          simpa [callLifecycleHook, h1, h2] using h
        simp [callLifecycleHook, h1, h2, List.filter_cons, ih hrest]
    · have hrest : (callLifecycleHook impl throws hook rest).2 = true := by
        simpa [callLifecycleHook, h1] using h
      simp [callLifecycleHook, h1, List.filter_cons, ih hrest]

/-- In a concatenation of init events with bootstrap events, every init event
precedes every bootstrap event. -/
theorem init_events_before_boot_events (A B : List AppEvent)
    (hA : ∀ e ∈ A, ∃ i, e = AppEvent.lifecycle i .onModuleInit)
    (hB : ∀ e ∈ B, ∃ i, e = AppEvent.lifecycle i .onApplicationBootstrap) :
    ∀ (p q : Fin (A ++ B).length) (a b : ClassId × Role),
      (A ++ B).get p = AppEvent.lifecycle a .onModuleInit →
      (A ++ B).get q = AppEvent.lifecycle b .onApplicationBootstrap → p.val < q.val := by
  intro p q a b hp hq
  obtain ⟨pv, hpv⟩ := p
  obtain ⟨qv, hqv⟩ := q
  simp only [List.get_eq_getElem] at hp hq
  show pv < qv
  have hlen : (A ++ B).length = A.length + B.length := List.length_append A B
  have hpA : pv < A.length := by
    by_contra hge
    push_neg at hge
    have hbound : pv - A.length < B.length := by omega
    have hrw : (A ++ B)[pv] = B[pv - A.length] := List.getElem_append_right hge
    rw [hrw] at hp
    have hmem : B[pv - A.length] ∈ B := List.getElem_mem hbound
    obtain ⟨i, hi⟩ := hB _ hmem
    rw [hp] at hi
    simp at hi
  have hqB : A.length ≤ qv := by
    by_contra hlt
    push_neg at hlt
    have hrw : (A ++ B)[qv] = A[qv] := List.getElem_append_left hlt
    rw [hrw] at hq
    have hmem : A[qv] ∈ A := List.getElem_mem hlt
    obtain ⟨i, hi⟩ := hA _ hmem
    rw [hq] at hi
    simp at hi
  omega

/-- C4: when bootstrap completes without error, its lifecycle trace is exactly
the `onModuleInit` invocations over the instance registry in registration
order followed by the `onApplicationBootstrap` invocations in the same order;
every instance implementing a hook is invoked in its phase, and every
`onModuleInit` invocation precedes every `onApplicationBootstrap` invocation.
The trace is a single sequential list: within a phase hooks run one after the
other, never concurrently. -/
theorem lifecycle_hook_ordering (env : ModuleEnv) (impl throws : ClassId → LifecycleHook → Bool)
    (fuel : Nat) (root : ClassId) (st : FactoryState) (tr : List AppEvent)
    (hboot : bootstrap env impl throws fuel root =
      { state := st, error := none, hookEvents := tr }) :
    tr = ((st.registeredInstances.filter fun i => impl i.1 .onModuleInit).map
        fun i => AppEvent.lifecycle i .onModuleInit) ++
      ((st.registeredInstances.filter fun i => impl i.1 .onApplicationBootstrap).map
        fun i => AppEvent.lifecycle i .onApplicationBootstrap) ∧
    (∀ i ∈ st.registeredInstances, impl i.1 .onModuleInit = true →
      AppEvent.lifecycle i .onModuleInit ∈ tr) ∧
    (∀ i ∈ st.registeredInstances, impl i.1 .onApplicationBootstrap = true →
      AppEvent.lifecycle i .onApplicationBootstrap ∈ tr) ∧
    (∀ (p q : Fin tr.length) (a b : ClassId × Role),
      tr.get p = AppEvent.lifecycle a .onModuleInit →
      tr.get q = AppEvent.lifecycle b .onApplicationBootstrap → p.val < q.val) := by
  rcases hreg : registerModule env fuel root emptyState with ⟨st0, e0⟩
  cases e0 with
  | some e => simp [bootstrap, hreg] at hboot
  | none =>
    cases h1 : (callLifecycleHook impl throws .onModuleInit st0.registeredInstances).2 with
    | false => simp [bootstrap, hreg, h1] at hboot
    | true =>
      cases h2 : (callLifecycleHook impl throws .onApplicationBootstrap
          st0.registeredInstances).2 with
      | false => simp [bootstrap, hreg, h1, h2] at hboot
      | true =>
        have hmk : st0 = st ∧
            (callLifecycleHook impl throws .onModuleInit st0.registeredInstances).1 ++
              (callLifecycleHook impl throws .onApplicationBootstrap
                st0.registeredInstances).1 = tr := by
          simpa [bootstrap, hreg, h1, h2] using hboot
        obtain ⟨hst, htr⟩ := hmk
        subst hst
        have hA := callLifecycleHook_events_of_ok impl throws .onModuleInit
          st0.registeredInstances h1
        have hB := callLifecycleHook_events_of_ok impl throws .onApplicationBootstrap
          st0.registeredInstances h2
        subst htr
        refine ⟨by rw [hA, hB], ?_, ?_, ?_⟩
        · intro i hi himpl
          refine List.mem_append_left _ ?_
          rw [hA]
          exact List.mem_map_of_mem _ (List.mem_filter.mpr ⟨hi, by simpa using himpl⟩)
        · intro i hi himpl
          refine List.mem_append_right _ ?_
          rw [hB]
          exact List.mem_map_of_mem _ (List.mem_filter.mpr ⟨hi, by simpa using himpl⟩)
        · refine init_events_before_boot_events _ _ ?_ ?_
          · intro e he
            rw [hA] at he
            obtain ⟨i, _, hei⟩ := List.mem_map.mp he
            exact ⟨i, hei.symm⟩
          · intro e he
            rw [hB] at he
            obtain ⟨i, _, hei⟩ := List.mem_map.mp he
            exact ⟨i, hei.symm⟩

/-- C4 witness: a module with two providers, all implementing both hooks; the
bootstrap trace is the two init invocations (in registration order) followed
by the two bootstrap invocations. -/
theorem lifecycle_hook_ordering_witness :
    (bootstrap envHooks implAllL throwsNoneL 1 clsHRoot).error = none ∧
    (bootstrap envHooks implAllL throwsNoneL 1 clsHRoot).hookEvents =
      (((bootstrap envHooks implAllL throwsNoneL 1 clsHRoot).state.registeredInstances.filter
          fun i => implAllL i.1 .onModuleInit).map
        fun i => AppEvent.lifecycle i .onModuleInit) ++
      (((bootstrap envHooks implAllL throwsNoneL 1 clsHRoot).state.registeredInstances.filter
          fun i => implAllL i.1 .onApplicationBootstrap).map
        fun i => AppEvent.lifecycle i .onApplicationBootstrap) := by
  have hboot : bootstrap envHooks implAllL throwsNoneL 1 clsHRoot =
      { state := (bootstrap envHooks implAllL throwsNoneL 1 clsHRoot).state,
        error := none,
        hookEvents := (bootstrap envHooks implAllL throwsNoneL 1 clsHRoot).hookEvents } := by
    decide
  exact ⟨by decide,
    (lifecycle_hook_ordering envHooks implAllL throwsNoneL 1 clsHRoot _ _ hboot).1⟩

/-- C5: bootstrapping a root class that carries no module descriptor rejects
with an error message that starts with the class name, leaves only that class
in the registered-module set, and runs no lifecycle hook. -/
theorem bootstrap_missing_module_error (env : ModuleEnv)
    (impl throws : ClassId → LifecycleHook → Bool) (fuel : Nat) (root : ClassId)
    (hmeta : env root = none) :
    bootstrap env impl throws (fuel + 1) root =
      { state := { emptyState with registeredModules := [root] },
        error := some (invalidModuleMessage root), hookEvents := [] } ∧
    (∃ rest, invalidModuleMessage root = root.name ++ rest) := by
  constructor
  · simp [bootstrap, registerModule, hmeta, emptyState]
  · exact ⟨" is not a valid module. Use the @Module() decorator.", rfl⟩

/-- C5 witness: bootstrapping the undecorated class `NotAModule` rejects with
`NotAModule is not a valid module. Use the @Module() decorator.` and an empty
hook trace. -/
theorem bootstrap_missing_module_error_witness :
    envNone badModule = none ∧
    bootstrap envNone implAllL throwsNoneL 1 badModule =
      { state := { emptyState with registeredModules := [badModule] },
        error := some (invalidModuleMessage badModule), hookEvents := [] } := by
  exact ⟨rfl,
    (bootstrap_missing_module_error envNone implAllL throwsNoneL 0 badModule rfl).1⟩

theorem runShutdownHooks_ok (implL throwsL : ClassId → LifecycleHook → Bool)
    (implS throwsS : ClassId → SignalHook → Bool) (signal : String)
    (insts : List (ClassId × Role)) :
    (runShutdownHooks implL throwsL implS throwsS signal insts).2 =
      !(anyShutdownHookThrows implL throwsL implS throwsS insts) := by
  have hD := callLifecycleHook_ok_iff implL throwsL .onModuleDestroy insts
  have hB := callSignalHook_ok_iff implS throwsS .beforeApplicationShutdown signal insts
  have hS := callSignalHook_ok_iff implS throwsS .onApplicationShutdown signal insts
  have hsplit : anyShutdownHookThrows implL throwsL implS throwsS insts =
      ((insts.any fun i => implL i.1 .onModuleDestroy && throwsL i.1 .onModuleDestroy) ||
       ((insts.any fun i =>
          implS i.1 .beforeApplicationShutdown && throwsS i.1 .beforeApplicationShutdown) ||
        (insts.any fun i =>
          implS i.1 .onApplicationShutdown && throwsS i.1 .onApplicationShutdown))) := by
    rw [anyShutdownHookThrows, ← list_any_orb, ← list_any_orb]
    simp [Bool.or_assoc]
  cases hD2 : insts.any fun i => implL i.1 .onModuleDestroy && throwsL i.1 .onModuleDestroy with
  | true => simp [runShutdownHooks, hD, hD2, hsplit]
  | false =>
    cases hB2 : insts.any fun i =>
        implS i.1 .beforeApplicationShutdown && throwsS i.1 .beforeApplicationShutdown with
    | true => simp [runShutdownHooks, hD, hB, hD2, hB2, hsplit]
    | false =>
      cases hS2 : insts.any fun i =>
          implS i.1 .onApplicationShutdown && throwsS i.1 .onApplicationShutdown with
      | true => simp [runShutdownHooks, hD, hB, hS, hD2, hB2, hS2, hsplit]
      | false => simp [runShutdownHooks, hD, hB, hS, hD2, hB2, hS2, hsplit]

/-- C6: a first termination signal received while running latches the factory
and executes the destroy/shutdown hook sequence with an exit code of 0 exactly
when no hook throws and 1 when some hook throws; a second signal received once
shutdown has begun is a no-op (no hooks, no exit), so the sequence executes
exactly once. -/
theorem shutdown_idempotent_exit_codes
    (implL throwsL : ClassId → LifecycleHook → Bool)
    (implS throwsS : ClassId → SignalHook → Bool)
    (sig sig2 : String) (st : FactoryState) (r : ShutdownResult)
    (hrun : st.isShuttingDown = false)
    (hr : shutdown implL throwsL implS throwsS sig st = r) :
    shutdown implL throwsL implS throwsS sig2 r.state =
      { state := r.state, events := [], exitCode := none } ∧
    r.state.isShuttingDown = true ∧
    r.exitCode = some (if anyShutdownHookThrows implL throwsL implS throwsS
        st.registeredInstances then 1 else 0) := by
  subst hr
  have hstate : (shutdown implL throwsL implS throwsS sig st).state =
      { st with isShuttingDown := true } := by
    simp [shutdown, hrun]
  refine ⟨?_, ?_, ?_⟩
  · rw [hstate]
    simp [shutdown]
  · rw [hstate]
  · have hexit : (shutdown implL throwsL implS throwsS sig st).exitCode =
        some (if (runShutdownHooks implL throwsL implS throwsS sig
          st.registeredInstances).2 then 0 else 1) := by
      simp [shutdown, hrun]
    rw [hexit, runShutdownHooks_ok]
    cases h : anyShutdownHookThrows implL throwsL implS throwsS st.registeredInstances <;>
      simp [h]

/-- C6 witness: from a running state with registered instances, a SIGINT runs
the shutdown sequence and exits with code 0 (no hook throws), and a SIGTERM
arriving afterwards is a no-op. -/
theorem shutdown_idempotent_witness :
    (stShut.isShuttingDown = false) ∧
    shutdown implAllL throwsNoneL implAllS throwsNoneS "SIGTERM"
        (shutdown implAllL throwsNoneL implAllS throwsNoneS "SIGINT" stShut).state =
      { state := (shutdown implAllL throwsNoneL implAllS throwsNoneS "SIGINT" stShut).state,
        events := [], exitCode := none } ∧
    (shutdown implAllL throwsNoneL implAllS throwsNoneS "SIGINT" stShut).exitCode = some 0 := by
  have h := shutdown_idempotent_exit_codes implAllL throwsNoneL implAllS throwsNoneS
    "SIGINT" "SIGTERM" stShut _ rfl rfl
  refine ⟨rfl, h.1, ?_⟩
  rw [h.2.2]
  decide

/-- C10: the missing-descriptor failure of `registerModule` is not atomic —
the class is added to the registered-module set *before* the metadata check
throws, stays visible through `getRegisteredModules`, and a second call on the
same factory returns without error and without any state change. -/
theorem registerModule_adds_before_throw (env : ModuleEnv) (fuel : Nat) (C : ClassId)
    (st : FactoryState) (hmeta : env C = none) (hnotin : C ∉ st.registeredModules) :
    registerModule env (fuel + 1) C st =
      ({ st with registeredModules := st.registeredModules ++ [C] },
        some (invalidModuleMessage C)) ∧
    C ∈ getRegisteredModules { st with registeredModules := st.registeredModules ++ [C] } ∧
    (∀ f, registerModule env (f + 1) C
        { st with registeredModules := st.registeredModules ++ [C] } =
      ({ st with registeredModules := st.registeredModules ++ [C] }, none)) := by
  refine ⟨?_, ?_, ?_⟩
  · simp [registerModule, hmeta, hnotin]
  · simp [getRegisteredModules]
  · intro f
    simp [registerModule]

/-- C10 witness: registering the undecorated class `NotAModule` on a fresh
factory throws but records it; the second call is a silent no-op. -/
theorem registerModule_adds_before_throw_witness :
    (envNone badModule = none ∧ badModule ∉ emptyState.registeredModules) ∧
    registerModule envNone 1 badModule emptyState =
      ({ emptyState with registeredModules := [badModule] },
        some (invalidModuleMessage badModule)) ∧
    badModule ∈ getRegisteredModules { emptyState with registeredModules := [badModule] } ∧
    registerModule envNone 1 badModule { emptyState with registeredModules := [badModule] } =
      ({ emptyState with registeredModules := [badModule] }, none) := by
  have h := registerModule_adds_before_throw envNone 0 badModule emptyState rfl (by decide)
  exact ⟨⟨rfl, by decide⟩, h.1, h.2.1, h.2.2 0⟩

theorem nodup_append_singleton {γ : Type} (l : List γ) (a : γ) (h : l.Nodup)
    (ha : a ∉ l) : (l ++ [a]).Nodup := by
  rw [List.nodup_append]
  refine ⟨h, List.nodup_singleton a, ?_⟩
  intro x hx hxa
  simp only [List.mem_singleton] at hxa
  subst hxa
  exact ha hx

theorem registerProviders_registeredModules (l : List ClassId) (st : FactoryState) :
    (registerProviders l st).registeredModules = st.registeredModules := by
  induction l generalizing st with
  | nil => rfl
  | cons p rest ih =>
    have hstep : registerProviders (p :: rest) st =
        registerProviders rest (registerInstance p .provider
          (if p ∈ st.containerRegistered then st
           else { st with containerRegistered := st.containerRegistered ++ [p] })) := rfl
    rw [hstep, ih]
    by_cases h : p ∈ st.containerRegistered <;> simp [registerInstance, h]

theorem registerProviders_registeredInstances (l : List ClassId) (st : FactoryState) :
    (registerProviders l st).registeredInstances =
      st.registeredInstances ++ l.map (fun p => (p, Role.provider)) := by
  induction l generalizing st with
  | nil => simp [registerProviders]
  | cons p rest ih =>
    have hstep : registerProviders (p :: rest) st =
        registerProviders rest (registerInstance p .provider
          (if p ∈ st.containerRegistered then st
           else { st with containerRegistered := st.containerRegistered ++ [p] })) := rfl
    rw [hstep, ih]
    by_cases h : p ∈ st.containerRegistered <;> simp [registerInstance, h]

theorem registerControllers_registeredModules (l : List ClassId) (st : FactoryState) :
    (registerControllers l st).registeredModules = st.registeredModules := by
  induction l generalizing st with
  | nil => rfl
  | cons c rest ih =>
    have hstep : registerControllers (c :: rest) st =
        registerControllers rest (registerInstance c .controller
          (if c ∈ st.containerRegistered then st
           else { st with containerRegistered := st.containerRegistered ++ [c] })) := rfl
    rw [hstep, ih]
    by_cases h : c ∈ st.containerRegistered <;> simp [registerInstance, h]

theorem registerControllers_registeredInstances (l : List ClassId) (st : FactoryState) :
    (registerControllers l st).registeredInstances =
      st.registeredInstances ++ l.map (fun c => (c, Role.controller)) := by
  induction l generalizing st with
  | nil => simp [registerControllers]
  | cons c rest ih =>
    have hstep : registerControllers (c :: rest) st =
        registerControllers rest (registerInstance c .controller
          (if c ∈ st.containerRegistered then st
           else { st with containerRegistered := st.containerRegistered ++ [c] })) := rfl
    rw [hstep, ih]
    by_cases h : c ∈ st.containerRegistered <;> simp [registerInstance, h]

theorem count_map_role_same (P : ClassId) (r : Role) (l : List ClassId) :
    ((l.map fun c => (c, r)).count (P, r)) = l.count P := by
  induction l with
  | nil => rfl
  | cons c rest ih =>
    by_cases h : c = P
    · subst h
      simp [List.count_cons, ih]
    · simp [List.count_cons, ih, h]

theorem count_map_role_ne (P : ClassId) (r r' : Role) (l : List ClassId)
    (h : r ≠ r') : ((l.map fun c => (c, r)).count (P, r')) = 0 := by
  induction l with
  | nil => rfl
  | cons c rest ih =>
    simp [List.count_cons, ih, h]

theorem providerRecordCount_registerProviders (P : ClassId) (l : List ClassId)
    (st : FactoryState) :
    providerRecordCount P (registerProviders l st) =
      providerRecordCount P st + l.count P := by
  simp [providerRecordCount, registerProviders_registeredInstances, List.count_append,
    count_map_role_same]

theorem providerRecordCount_registerControllers (P : ClassId) (l : List ClassId)
    (st : FactoryState) :
    providerRecordCount P (registerControllers l st) = providerRecordCount P st := by
  have hne : Role.controller ≠ Role.provider := by decide
  simp [providerRecordCount, registerControllers_registeredInstances, List.count_append,
    count_map_role_ne P Role.controller Role.provider l hne]

theorem providerRecordCount_registerInstance_module (P m : ClassId) (st : FactoryState) :
    providerRecordCount P (registerInstance m .module st) = providerRecordCount P st := by
  simp [providerRecordCount, registerInstance, List.count_append, List.count_cons]

/-- What one successful `registerModule` call guarantees about the state it
returns: the registered-module set only grew, the provider-record count grew by
exactly the provider declarations of the newly added modules, `Nodup` of the
module set is preserved, and every member of the new set either was already
present or has all its imports in the new set. -/
def RegSuccessSpec (env : ModuleEnv) (st st' : FactoryState) : Prop :=
  (∃ dm, st'.registeredModules = st.registeredModules ++ dm ∧
    ∀ P, providerRecordCount P st' =
      providerRecordCount P st + (dm.map fun m => declaredProviderCount env P m).sum) ∧
  (st.registeredModules.Nodup → st'.registeredModules.Nodup) ∧
  (∀ x ∈ st'.registeredModules, x ∈ st.registeredModules ∨
    (∀ i ∈ importsOf env x, i ∈ st'.registeredModules))

theorem regSpec_refl (env : ModuleEnv) (st : FactoryState) : RegSuccessSpec env st st :=
  ⟨⟨[], by simp, fun P => by simp⟩, id, fun x hx => Or.inl hx⟩

theorem regSpec_trans {env : ModuleEnv} {st st₁ st₂ : FactoryState}
    (h1 : RegSuccessSpec env st st₁) (h2 : RegSuccessSpec env st₁ st₂) :
    RegSuccessSpec env st st₂ := by
  obtain ⟨⟨d1, hd1, hc1⟩, hn1, hcl1⟩ := h1
  obtain ⟨⟨d2, hd2, hc2⟩, hn2, hcl2⟩ := h2
  refine ⟨⟨d1 ++ d2, by rw [hd2, hd1, List.append_assoc], fun P => ?_⟩,
    fun h => hn2 (hn1 h), ?_⟩
  · rw [hc2 P, hc1 P]
    simp [List.map_append, List.sum_append]
    omega
  · intro x hx
    rcases hcl2 x hx with h | h
    · rcases hcl1 x h with h' | h'
      · exact Or.inl h'
      · refine Or.inr ?_
        intro i hi
        rw [hd2]
        exact List.mem_append_left _ (h' i hi)
    · exact Or.inr h

theorem registerImportsAux_spec (env : ModuleEnv)
    (f : ClassId → FactoryState → FactoryState × Option String)
    (hf : ∀ i st st', f i st = (st', none) →
      RegSuccessSpec env st st' ∧ i ∈ st'.registeredModules) :
    ∀ (l : List ClassId) (st st' : FactoryState),
      registerImportsAux f l st = (st', none) →
      RegSuccessSpec env st st' ∧ ∀ i ∈ l, i ∈ st'.registeredModules := by
  intro l
  induction l with
  | nil =>
    intro st st' h
    simp only [registerImportsAux, Prod.mk.injEq] at h
    obtain ⟨h1, -⟩ := h
    subst h1
    exact ⟨regSpec_refl env _, by simp⟩
  | cons i rest ih =>
    intro st st' h
    simp only [registerImportsAux] at h
    rcases hfi : f i st with ⟨st₁, e₁⟩
    rw [hfi] at h
    cases e₁ with
    | some e => simp at h
    | none =>
      simp only at h
      obtain ⟨hspec₁, hmem₁⟩ := hf i st st₁ hfi
      obtain ⟨hspec₂, hmem₂⟩ := ih st₁ st' h
      refine ⟨regSpec_trans hspec₁ hspec₂, ?_⟩
      intro j hj
      rcases List.mem_cons.mp hj with hj | hj
      · subst hj
        obtain ⟨⟨d2, hd2, -⟩, -, -⟩ := hspec₂
        rw [hd2]
        exact List.mem_append_left _ hmem₁
      · exact hmem₂ j hj

theorem registerModule_success_spec (env : ModuleEnv) :
    ∀ (fuel : Nat) (m : ClassId) (st st' : FactoryState),
      registerModule env fuel m st = (st', none) →
      RegSuccessSpec env st st' ∧ m ∈ st'.registeredModules := by
  intro fuel
  induction fuel with
  | zero =>
    intro m st st' h
    simp [registerModule] at h
  | succ fuel ih =>
    intro m st st' h
    by_cases hmem : m ∈ st.registeredModules
    · have hst : st = st' := by simpa [registerModule, hmem] using h
      subst hst
      exact ⟨regSpec_refl env st, hmem⟩
    · rcases henv : env m with - | metadata
      · simp [registerModule, hmem, henv] at h
      · simp only [registerModule, hmem, if_false, henv] at h
        rcases haux : registerImportsAux (registerModule env fuel) metadata.imports
            { st with registeredModules := st.registeredModules ++ [m] } with ⟨st2, e2⟩
        rw [haux] at h
        cases e2 with
        | some e => simp at h
        | none =>
          simp only [Prod.mk.injEq] at h
          obtain ⟨hst', -⟩ := h
          obtain ⟨hspec2, hmemImports⟩ := registerImportsAux_spec env
            (registerModule env fuel) (fun i s s' hfi => ih i s s' hfi)
            metadata.imports { st with registeredModules := st.registeredModules ++ [m] }
            st2 haux
          obtain ⟨⟨d2, hd2, hc2⟩, hnd2, hcl2⟩ := hspec2
          have hmods : st'.registeredModules = st2.registeredModules := by
            rw [← hst']
            simp [registerInstance, registerControllers_registeredModules,
              registerProviders_registeredModules]
          have hst1mods :
              ({ st with registeredModules := st.registeredModules ++ [m] } :
                FactoryState).registeredModules = st.registeredModules ++ [m] := rfl
          have hminst : m ∈ st2.registeredModules := by
            rw [hd2, hst1mods]
            exact List.mem_append_left _ (List.mem_append_right _ (by simp))
          refine ⟨⟨⟨[m] ++ d2, ?_, ?_⟩, ?_, ?_⟩, ?_⟩
          · rw [hmods, hd2, hst1mods, List.append_assoc]
          · intro P
            have hcount : providerRecordCount P st' =
                providerRecordCount P st2 + metadata.providers.count P := by
              rw [← hst', providerRecordCount_registerInstance_module,
                providerRecordCount_registerControllers,
                providerRecordCount_registerProviders]
            have hc2P := hc2 P
            have hst1count : providerRecordCount P
                ({ st with registeredModules := st.registeredModules ++ [m] } :
                  FactoryState) = providerRecordCount P st := rfl
            rw [hcount, hc2P, hst1count]
            simp [declaredProviderCount, providersOf, henv]
            omega
          · intro hnd
            rw [hmods]
            exact hnd2 (by rw [hst1mods]; exact nodup_append_singleton _ _ hnd hmem)
          · intro x hx
            rw [hmods] at hx
            rcases hcl2 x hx with hx1 | hx1
            · rw [hst1mods] at hx1
              rcases List.mem_append.mp hx1 with hx2 | hx2
              · exact Or.inl hx2
              · simp only [List.mem_singleton] at hx2
                subst hx2
                refine Or.inr ?_
                intro i hi
                rw [hmods]
                refine hmemImports i ?_
                simpa [importsOf, henv] using hi
            · refine Or.inr ?_
              intro i hi
              rw [hmods]
              exact hx1 i hi
          · rw [hmods, hd2, hst1mods]
            exact List.mem_append_left _ (List.mem_append_right _ (by simp))

/-- C2 (amended): after a successful bootstrap, a module `M` reachable from
the root (in particular along two different import paths of a diamond) appears
exactly once in the registered-module set, and for every provider class `P`
the instance registry holds exactly one `provider` record per occurrence of
`P` in a registered module's provider list — so a provider declared only by
`M`, once, is recorded exactly once, but a provider declared by several
modules is recorded once per declaring module; a `registerModule` call whose
argument is already in the registered-module set returns immediately with no
state change. -/
theorem registerModule_idempotent (env : ModuleEnv)
    (impl throws : ClassId → LifecycleHook → Bool) (fuel : Nat) (root M : ClassId)
    (herr : (bootstrap env impl throws fuel root).error = none)
    (hreach : Reaches env root M) :
    ((bootstrap env impl throws fuel root).state.registeredModules.count M = 1) ∧
    (∀ P, providerRecordCount P (bootstrap env impl throws fuel root).state =
      (((bootstrap env impl throws fuel root).state.registeredModules).map
        fun m => declaredProviderCount env P m).sum) ∧
    (∀ (m : ClassId) (st₀ : FactoryState) (f : Nat), m ∈ st₀.registeredModules →
      registerModule env (f + 1) m st₀ = (st₀, none)) := by
  rcases hreg : registerModule env fuel root emptyState with ⟨st0, e0⟩
  cases e0 with
  | some e => simp [bootstrap, hreg] at herr
  | none =>
    have hstate : (bootstrap env impl throws fuel root).state = st0 := by
      simp only [bootstrap, hreg]
      split <;> rfl
    obtain ⟨⟨dm, hdm, hcnt⟩, hnd, hcl⟩ :=
      (registerModule_success_spec env fuel root emptyState st0 hreg).1
    have hrootmem : root ∈ st0.registeredModules :=
      (registerModule_success_spec env fuel root emptyState st0 hreg).2
    have hclosed_all : ∀ x ∈ st0.registeredModules,
        ∀ i ∈ importsOf env x, i ∈ st0.registeredModules := by
      intro x hx
      rcases hcl x hx with h | h
      · simp [emptyState] at h
      · exact h
    have hMmem : M ∈ st0.registeredModules := by
      induction hreach with
      | refl => exact hrootmem
      | tail hab hbc ihh => exact hclosed_all _ ihh _ hbc
    have hndup : st0.registeredModules.Nodup := hnd (by simp [emptyState])
    rw [hstate]
    refine ⟨List.count_eq_one_of_mem hndup hMmem, ?_, ?_⟩
    · intro P
      have hdm' : st0.registeredModules = dm := by simpa [emptyState] using hdm
      rw [hdm']
      simpa [emptyState, providerRecordCount] using hcnt P
    · intro m st₀ f hm
      simp [registerModule, hm]

/-- C2 witness: the diamond graph (root imports A and B, both importing the
shared module M) bootstraps cleanly; M is registered exactly once, and the
provider-record count of the shared service equals its total number of
declarations across the registered modules. -/
theorem registerModule_idempotent_witness :
    ((bootstrap diamondEnv implAllL throwsNoneL 10 clsRoot).error = none) ∧
    Reaches diamondEnv clsRoot clsM ∧
    ((bootstrap diamondEnv implAllL throwsNoneL 10 clsRoot).state.registeredModules.count
      clsM = 1) ∧
    (providerRecordCount clsP (bootstrap diamondEnv implAllL throwsNoneL 10 clsRoot).state =
      (((bootstrap diamondEnv implAllL throwsNoneL 10 clsRoot).state.registeredModules).map
        fun m => declaredProviderCount diamondEnv clsP m).sum) := by
  have h1 : clsA ∈ importsOf diamondEnv clsRoot := by decide
  have h2 : clsM ∈ importsOf diamondEnv clsA := by decide
  have hreach : Reaches diamondEnv clsRoot clsM :=
    Reaches.tail (Reaches.tail (Reaches.refl clsRoot) h1) h2
  have herr : (bootstrap diamondEnv implAllL throwsNoneL 10 clsRoot).error = none := by
    decide
  have h := registerModule_idempotent diamondEnv implAllL throwsNoneL 10 clsRoot clsM
    herr hreach
  exact ⟨herr, hreach, h.1, h.2.1 clsP⟩

/-- C2 counterexample: in the diamond graph, `clsM` is reachable from the root
along two different import paths and declares provider `clsP`; after a
successful bootstrap `clsM` is registered exactly once, yet `clsP` carries
*two* provider records in the instance registry (the root also declares it),
refuting "each provider declared by M is resolved and recorded in the instance
registry exactly once". -/
theorem shared_provider_registered_twice :
    (clsA ∈ importsOf diamondEnv clsRoot ∧ clsM ∈ importsOf diamondEnv clsA ∧
     clsB ∈ importsOf diamondEnv clsRoot ∧ clsM ∈ importsOf diamondEnv clsB ∧
     clsA ≠ clsB) ∧
    clsP ∈ providersOf diamondEnv clsM ∧
    ((bootstrap diamondEnv implAllL throwsNoneL 10 clsRoot).error = none) ∧
    ((bootstrap diamondEnv implAllL throwsNoneL 10 clsRoot).state.registeredModules.count
      clsM = 1) ∧
    providerRecordCount clsP (bootstrap diamondEnv implAllL throwsNoneL 10 clsRoot).state
      = 2 ∧
    (2 : Nat) ≠ 1 := by
  decide

end ElysiaDI
